import Mathlib

/-!
Verification of the Todo application core (git-journey).

The repository ships the React frontend (`src/frontend/src/App.js`); the
backend Todo Store and Summary Aggregator (FastAPI per the PRD) are not in
the source tree, so they are modelled here from the specification.  The
frontend logic (client-side filtering, status toggling, date rendering) is
translated directly from `App.js`.
-/

namespace TodoApp

/-- Enumerated status values, from `STATUS_OPTIONS` in App.js:
`["pending", "in-progress", "completed"]`. -/
def STATUS_OPTIONS : List String := ["pending", "in-progress", "completed"]

/-- Enumerated priority values, from `PRIORITY_OPTIONS` in App.js:
`["low", "medium", "high"]`. -/
def PRIORITY_OPTIONS : List String := ["low", "medium", "high"]

/-- Modelled from the spec: the closed status enum of the Todo Store
(§3 data model); the backend implementation is missing from the tree. -/
inductive Status where
  | pending
  | inProgress
  | completed
deriving DecidableEq

/-- Modelled from the spec: the closed priority enum of the Todo Store
(§3 data model); the backend implementation is missing from the tree. -/
inductive Priority where
  | low
  | medium
  | high
deriving DecidableEq

/-- Modelled from the spec: the error taxonomy of §7 (`ValidationError`,
`NotFoundError`); the backend implementation is missing from the tree. -/
inductive Err where
  | validationError
  | notFoundError
deriving DecidableEq

/-- Modelled from the spec: a stored Todo record (§3).  Timestamps are
abstract clock ticks (`Nat`).  Following the open question of §9, the
source stores `due_date` as opaque text, so it is kept as the raw string
supplied at write time (`none` means "no due date"). -/
structure Todo where
  id : Nat
  title : String
  description : String
  due_date : Option String
  priority : Priority
  status : Status
  created_at : Nat
  updated_at : Nat
deriving DecidableEq

/-- Modelled from the spec: the aggregate structure returned by
`summarize()` (§4.2); the backend implementation is missing from the tree. -/
structure Summary where
  total : Nat
  completed : Nat
  pending : Nat
  in_progress : Nat
  high_priority : Nat
  medium_priority : Nat
  low_priority : Nat
deriving DecidableEq

/-- Modelled from the spec: a create payload (§6): required `title`
(here `none` models a missing field), optional `description`, `due_date`,
`priority`, `status`, all carried as raw text to be validated. -/
structure CreatePayload where
  title : Option String := none
  description : Option String := none
  due_date : Option String := none
  priority : Option String := none
  status : Option String := none
deriving DecidableEq

/-- Modelled from the spec: a partial (merge-patch) update payload (§6);
`none` means the field is not supplied and must retain its prior value. -/
structure UpdatePayload where
  title : Option String := none
  description : Option String := none
  due_date : Option String := none
  priority : Option String := none
  status : Option String := none
deriving DecidableEq

/-- Modelled from the spec: the Store's state — the record set, the
fresh-id counter, and an abstract monotone clock supplying `now`. -/
structure Store where
  records : List Todo
  nextId : Nat
  clock : Nat
deriving DecidableEq

/-- Modelled from the spec: the empty Store at process start. -/
def initStore : Store := { records := [], nextId := 0, clock := 0 }

/-- Modelled from the spec: boundary validation of a `priority` value
(§9: a closed tagged set; out-of-enum values are rejected, omitted
defaults to `medium`). -/
def parsePriority (v : Option String) : Except Err Priority :=
  match v with
  | none => .ok .medium
  | some s =>
    if s = "low" then .ok .low
    else if s = "medium" then .ok .medium
    else if s = "high" then .ok .high
    else .error .validationError

/-- Modelled from the spec: boundary validation of a `status` value
(omitted defaults to `pending`). -/
def parseStatus (v : Option String) : Except Err Status :=
  match v with
  | none => .ok .pending
  | some s =>
    if s = "pending" then .ok .pending
    else if s = "in-progress" then .ok .inProgress
    else if s = "completed" then .ok .completed
    else .error .validationError

/-- Modelled from the spec: validation of an optional `priority` in a
partial update — absent stays absent, present must be in the enum. -/
def parsePriorityOpt (v : Option String) : Except Err (Option Priority) :=
  match v with
  | none => .ok none
  | some s => (parsePriority (some s)).map some

/-- Modelled from the spec: validation of an optional `status` in a
partial update — absent stays absent, present must be in the enum. -/
def parseStatusOpt (v : Option String) : Except Err (Option Status) :=
  match v with
  | none => .ok none
  | some s => (parseStatus (some s)).map some

/-- Modelled from the spec: `create(fields)` (§4.1).  `title` required
and non-empty else `ValidationError`; `priority`/`status` validated
against their enums; assigns the fresh id `nextId`, sets
`created_at = updated_at = now`; returns the full stored record.  Per
the §9 open question, `due_date` is stored verbatim, unvalidated. -/
def create (s : Store) (p : CreatePayload) : Except Err (Todo × Store) :=
  match p.title with
  | none => .error .validationError
  | some t =>
    if t = "" then .error .validationError
    else
      match parsePriority p.priority with
      | .error e => .error e
      | .ok pr =>
        match parseStatus p.status with
        | .error e => .error e
        | .ok st =>
          let todo : Todo :=
            { id := s.nextId
              title := t
              description := p.description.getD ""
              due_date := p.due_date
              priority := pr
              status := st
              created_at := s.clock
              updated_at := s.clock }
          .ok (todo, { records := s.records ++ [todo], nextId := s.nextId + 1,
                       clock := s.clock + 1 })

/-- Modelled from the spec: `get(id)` (§4.1) — the matching record or
`NotFoundError`. -/
def get (s : Store) (id : Nat) : Except Err Todo :=
  match s.records.find? (fun t => t.id = id) with
  | some t => .ok t
  | none => .error .notFoundError

/-- Modelled from the spec: `update(id, partialFields)` (§4.1) —
`NotFoundError` on unknown id; empty-string `title` and out-of-enum
`priority`/`status` rejected with `ValidationError`; only supplied
fields change; `updated_at` set to `now`; the updated record is
returned and no other record is touched. -/
def update (s : Store) (id : Nat) (p : UpdatePayload) : Except Err (Todo × Store) :=
  match s.records.find? (fun t => t.id = id) with
  | none => .error .notFoundError
  | some t =>
    if p.title = some "" then .error .validationError
    else
      match parsePriorityOpt p.priority with
      | .error e => .error e
      | .ok pr =>
        match parseStatusOpt p.status with
        | .error e => .error e
        | .ok st =>
          let t' : Todo :=
            { id := t.id
              title := p.title.getD t.title
              description := p.description.getD t.description
              due_date := match p.due_date with | none => t.due_date | some d => some d
              priority := pr.getD t.priority
              status := st.getD t.status
              created_at := t.created_at
              updated_at := s.clock }
          .ok (t', { records := s.records.map (fun u => if u.id = id then t' else u),
                     nextId := s.nextId, clock := s.clock + 1 })

/-- Modelled from the spec: `delete(id)` (§4.1) — `NotFoundError` on
unknown id; otherwise removes the record permanently and returns no
content (`Unit`). -/
def deleteTodo (s : Store) (id : Nat) : Except Err (Unit × Store) :=
  if s.records.any (fun t => t.id = id) then
    .ok ((), { records := s.records.filter (fun t => ¬ t.id = id),
               nextId := s.nextId, clock := s.clock + 1 })
  else .error .notFoundError

/-- Modelled from the spec: `summarize()` (§4.2) — counts over the
current record set: total, per-status, per-priority. -/
def summarize (todos : List Todo) : Summary :=
  { total := todos.length
    completed := (todos.filter (fun t => t.status = Status.completed)).length
    pending := (todos.filter (fun t => t.status = Status.pending)).length
    in_progress := (todos.filter (fun t => t.status = Status.inProgress)).length
    high_priority := (todos.filter (fun t => t.priority = Priority.high)).length
    medium_priority := (todos.filter (fun t => t.priority = Priority.medium)).length
    low_priority := (todos.filter (fun t => t.priority = Priority.low)).length }

/-- Modelled from the spec: the Aggregator reads through the Store's
listing operation (§2) and recomputes on every call. -/
def summarizeStore (s : Store) : Summary := summarize s.records

/-- One client request against the Store: create, update or delete. -/
inductive Op where
  | createOp (p : CreatePayload)
  | updateOp (id : Nat) (p : UpdatePayload)
  | deleteOp (id : Nat)

/-- Modelled from the spec: apply one operation to the Store; a failed
operation reports its error to the caller and leaves the state
unchanged (§7: all-or-nothing, no partial mutation). -/
def applyOp (s : Store) : Op → Store
  | .createOp p =>
    match create s p with
    | .ok (_, s') => s'
    | .error _ => s
  | .updateOp id p =>
    match update s id p with
    | .ok (_, s') => s'
    | .error _ => s
  | .deleteOp id =>
    match deleteTodo s id with
    | .ok (_, s') => s'
    | .error _ => s

/-- Run a sequence of operations from a given state. -/
def exec (s : Store) : List Op → Store
  | [] => s
  | op :: ops => exec (applyOp s op) ops

/-- The ids handed out by the successful creates of a run, in order. -/
def createdIds (s : Store) : List Op → List Nat
  | [] => []
  | .createOp p :: ops =>
    match create s p with
    | .ok (t, s') => t.id :: createdIds s' ops
    | .error _ => createdIds s ops
  | op :: ops => createdIds (applyOp s op) ops

/-- Modelled from the spec: a date-only value in the unambiguous
`YYYY-MM-DD` shape produced by the date input (§3, §6); anything else is
unparseable as a date. -/
def isValidDateString (s : String) : Bool :=
  match s.data with
  | [y1, y2, y3, y4, '-', m1, m2, '-', d1, d2] =>
    y1.isDigit && y2.isDigit && y3.isDigit && y4.isDigit &&
    m1.isDigit && m2.isDigit && d1.isDigit && d2.isDigit &&
    (let m := (m1.toNat - 48) * 10 + (m2.toNat - 48)
     let d := (d1.toNat - 48) * 10 + (d2.toNat - 48)
     decide (1 ≤ m) && decide (m ≤ 12) && decide (1 ≤ d) && decide (d ≤ 31))
  | _ => false

/-! Frontend definitions, translated from `src/frontend/src/App.js`. -/

/-- A todo as the frontend receives it over the wire: `status` and
`priority` are plain strings and `description` may be absent
(App.js line 146 guards it with `|| ""`). -/
structure JsTodo where
  id : String
  title : String
  description : Option String
  due_date : Option String
  status : String
  priority : String
deriving DecidableEq

/-- Character-list helper for JS `String.prototype.includes`: does the
first list start the second? -/
def startsWithChars : List Char → List Char → Bool
  | [], _ => true
  | _ :: _, [] => false
  | a :: as, b :: bs => a = b && startsWithChars as bs

/-- Character-list helper: does the first list occur contiguously inside
the second? -/
def occursIn (pat : List Char) : List Char → Bool
  | [] => pat.isEmpty
  | c :: cs => startsWithChars pat (c :: cs) || occursIn pat cs

/-- JS `s.includes(pat)`: `pat` occurs as a contiguous substring of `s`
(the empty pattern always matches). -/
def jsIncludes (s pat : String) : Bool := occursIn pat.data s.data

/-- JS `s.toLowerCase()`: lower-case each character (`Char.toLower`,
applied characterwise so that it evaluates by reduction). -/
def jsToLower (s : String) : String := ⟨s.data.map Char.toLower⟩

/-- The `filteredTodos` memo of the Home component (App.js lines
138-151): keep the todos matching the status filter, the priority
filter, and the lowercased search over title or description. -/
def filteredTodos (todos : List JsTodo) (statusFilter priorityFilter searchTerm : String) :
    List JsTodo :=
  todos.filter (fun todo =>
    let matchesStatus := statusFilter == "all" || todo.status == statusFilter
    let matchesPriority := priorityFilter == "all" || todo.priority == priorityFilter
    let matchesSearch :=
      jsIncludes (jsToLower todo.title) (jsToLower searchTerm) ||
      jsIncludes (jsToLower (todo.description.getD "")) (jsToLower searchTerm)
    matchesStatus && matchesPriority && matchesSearch)

/-- The next status chosen by `handleToggle` (App.js line 164):
`completed` flips to `pending`, anything else becomes `completed`. -/
def toggleNextStatus (status : String) : String :=
  if status = "completed" then "pending" else "completed"

/-- The PUT body issued by `handleToggle` (App.js line 165): it carries
only the `status` field. -/
def handleTogglePayload (todo : JsTodo) : UpdatePayload :=
  { status := some (toggleNextStatus todo.status) }

/-- The `formatDate` helper (App.js lines 35-40): a missing or empty
value renders as "No due date"; an unparseable value is rendered
verbatim; a parseable date is rendered in locale form, modelled here as
`M/D/YYYY` from the `YYYY-MM-DD` digits. -/
def formatDate (value : Option String) : String :=
  match value with
  | none => "No due date"
  | some v =>
    if v = "" then "No due date"
    else
      match v.data with
      | [y1, y2, y3, y4, '-', m1, m2, '-', d1, d2] =>
        if isValidDateString v then
          let y := ((y1.toNat - 48) * 1000 + (y2.toNat - 48) * 100 +
                    (y3.toNat - 48) * 10 + (y4.toNat - 48))
          let m := (m1.toNat - 48) * 10 + (m2.toNat - 48)
          let d := (d1.toNat - 48) * 10 + (d2.toNat - 48)
          toString m ++ "/" ++ toString d ++ "/" ++ toString y
        else v
      | _ => v

/-! Basic lemmas about the Store operations. -/

/-- Every record carries exactly one status, so the three status filters
partition the record set. -/
theorem length_filter_status (l : List Todo) :
    (l.filter (fun t => t.status = Status.completed)).length
      + (l.filter (fun t => t.status = Status.pending)).length
      + (l.filter (fun t => t.status = Status.inProgress)).length = l.length := by
  induction l with
  | nil => rfl
  | cons t rest ih =>
    cases h : t.status <;> simp [List.filter_cons, h] <;> omega

/-- Every record carries exactly one priority, so the three priority
filters partition the record set. -/
theorem length_filter_priority (l : List Todo) :
    (l.filter (fun t => t.priority = Priority.high)).length
      + (l.filter (fun t => t.priority = Priority.medium)).length
      + (l.filter (fun t => t.priority = Priority.low)).length = l.length := by
  induction l with
  | nil => rfl
  | cons t rest ih =>
    cases h : t.priority <;> simp [List.filter_cons, h] <;> omega

/-- C1: for every record set reachable by any sequence of
create/update/delete operations, `summarize()` satisfies
`completed + pending + in_progress = total` and
`high_priority + medium_priority + low_priority = total`. -/
theorem summarize_partition (ops : List Op) :
    (summarizeStore (exec initStore ops)).completed
        + (summarizeStore (exec initStore ops)).pending
        + (summarizeStore (exec initStore ops)).in_progress
      = (summarizeStore (exec initStore ops)).total
    ∧ (summarizeStore (exec initStore ops)).high_priority
        + (summarizeStore (exec initStore ops)).medium_priority
        + (summarizeStore (exec initStore ops)).low_priority
      = (summarizeStore (exec initStore ops)).total := by
  constructor
  · exact length_filter_status (exec initStore ops).records
  · exact length_filter_priority (exec initStore ops).records

/-- C2: `summarize()` recomputes from the Store's current record set on
every call, with `total` the number of records and each remaining field
the count of records whose status (resp. priority) equals the
corresponding value. -/
theorem summarize_counts (s : Store) :
    summarizeStore s = summarize s.records
    ∧ (summarizeStore s).total = s.records.length
    ∧ (summarizeStore s).completed = s.records.countP (fun t => t.status = Status.completed)
    ∧ (summarizeStore s).pending = s.records.countP (fun t => t.status = Status.pending)
    ∧ (summarizeStore s).in_progress = s.records.countP (fun t => t.status = Status.inProgress)
    ∧ (summarizeStore s).high_priority = s.records.countP (fun t => t.priority = Priority.high)
    ∧ (summarizeStore s).medium_priority = s.records.countP (fun t => t.priority = Priority.medium)
    ∧ (summarizeStore s).low_priority = s.records.countP (fun t => t.priority = Priority.low) := by
  refine ⟨rfl, rfl, ?_, ?_, ?_, ?_, ?_, ?_⟩ <;>
    simp [summarizeStore, summarize, List.countP_eq_length_filter]

/-- Anatomy of a successful create: the fresh id is the counter, both
timestamps are `now`, the record is appended, the counter and clock
advance, omitted `priority`/`status` default, and `due_date` is stored
verbatim. -/
theorem create_ok {s : Store} {p : CreatePayload} {t : Todo} {s' : Store}
    (h : create s p = .ok (t, s')) :
    t.id = s.nextId ∧ t.created_at = s.clock ∧ t.updated_at = s.clock
    ∧ s'.records = s.records ++ [t] ∧ s'.nextId = s.nextId + 1 ∧ s'.clock = s.clock + 1
    ∧ (p.priority = none → t.priority = .medium)
    ∧ (p.status = none → t.status = .pending)
    ∧ t.due_date = p.due_date := by
  cases hpt : p.title with
  | none => simp [create, hpt] at h
  | some ttl =>
    by_cases hte : ttl = ""
    · simp [create, hpt, hte] at h
    · cases hpr : parsePriority p.priority with
      | error e => simp [create, hpt, hte, hpr] at h
      | ok pr =>
        cases hst : parseStatus p.status with
        | error e => simp [create, hpt, hte, hpr, hst] at h
        | ok st =>
          simp [create, hpt, hte, hpr, hst] at h
          obtain ⟨rfl, rfl⟩ := h
          refine ⟨rfl, rfl, rfl, rfl, rfl, rfl, ?_, ?_, rfl⟩
          · intro hp
            rw [hp] at hpr
            simpa [parsePriority] using hpr.symm
          · intro hs
            rw [hs] at hst
            simpa [parseStatus] using hst.symm

/-- Anatomy of a successful update: the touched record gets
`updated_at = now`, the clock advances, the counter is unchanged, and
the record list is rewritten only at the matching id. -/
theorem update_ok {s : Store} {id : Nat} {p : UpdatePayload} {t' : Todo} {s' : Store}
    (h : update s id p = .ok (t', s')) :
    t'.updated_at = s.clock ∧ s'.clock = s.clock + 1 ∧ s'.nextId = s.nextId
    ∧ s'.records = s.records.map (fun u => if u.id = id then t' else u) := by
  cases hfind : s.records.find? (fun u => u.id = id) with
  | none => simp [update, hfind] at h
  | some t =>
    by_cases hte : p.title = some ""
    · simp [update, hfind, hte] at h
    · cases hpr : parsePriorityOpt p.priority with
      | error e => simp [update, hfind, hte, hpr] at h
      | ok pr =>
        cases hst : parseStatusOpt p.status with
        | error e => simp [update, hfind, hte, hpr, hst] at h
        | ok st =>
          simp [update, hfind, hte, hpr, hst] at h
          obtain ⟨rfl, rfl⟩ := h
          exact ⟨rfl, rfl, rfl, rfl⟩

/-- Anatomy of a successful delete: every record with the id is removed,
the clock advances, the counter is unchanged. -/
theorem delete_ok {s : Store} {id : Nat} {u : Unit} {s' : Store}
    (h : deleteTodo s id = .ok (u, s')) :
    s'.records = s.records.filter (fun t => ¬ t.id = id)
    ∧ s'.clock = s.clock + 1 ∧ s'.nextId = s.nextId := by
  by_cases hany : s.records.any (fun t => t.id = id)
  · simp [deleteTodo, hany] at h
    obtain ⟨rfl⟩ := h
    refine ⟨?_, rfl, rfl⟩
    simp [decide_not]
  · simp [deleteTodo, hany] at h

/-- No operation ever decreases the fresh-id counter. -/
theorem applyOp_nextId_le (s : Store) (op : Op) : s.nextId ≤ (applyOp s op).nextId := by
  cases op with
  | createOp p =>
    cases hc : create s p with
    | error e => simp [applyOp, hc]
    | ok r =>
      obtain ⟨t, s'⟩ := r
      have := (create_ok hc).2.2.2.2.1
      simp [applyOp, hc, this]
  | updateOp id p =>
    cases hc : update s id p with
    | error e => simp [applyOp, hc]
    | ok r =>
      obtain ⟨t, s'⟩ := r
      have := (update_ok hc).2.2.1
      simp [applyOp, hc, this]
  | deleteOp id =>
    cases hc : deleteTodo s id with
    | error e => simp [applyOp, hc]
    | ok r =>
      obtain ⟨u, s'⟩ := r
      have := (delete_ok hc).2.2
      simp [applyOp, hc, this]

/-- The ids handed out along a run are distinct, and all at least the
starting counter. -/
theorem createdIds_nodup_aux (ops : List Op) :
    ∀ s : Store, (createdIds s ops).Nodup ∧ ∀ i ∈ createdIds s ops, s.nextId ≤ i := by
  induction ops with
  | nil => intro s; simp [createdIds]
  | cons op ops ih =>
    intro s
    cases op with
    | createOp p =>
      cases hc : create s p with
      | error e =>
        simpa [createdIds, hc] using ih s
      | ok r =>
        obtain ⟨t, s'⟩ := r
        obtain ⟨hid, _, _, _, hnext, _⟩ := create_ok hc
        obtain ⟨ihnd, ihlb⟩ := ih s'
        constructor
        · simp only [createdIds, hc, List.nodup_cons]
          refine ⟨fun hmem => ?_, ihnd⟩
          have := ihlb t.id hmem
          omega
        · intro i hi
          simp only [createdIds, hc, List.mem_cons] at hi
          rcases hi with rfl | hi
          · omega
          · have := ihlb i hi
            omega
    | updateOp id p =>
      have hle := applyOp_nextId_le s (.updateOp id p)
      obtain ⟨ihnd, ihlb⟩ := ih (applyOp s (.updateOp id p))
      refine ⟨by simpa [createdIds] using ihnd, fun i hi => ?_⟩
      have : i ∈ createdIds (applyOp s (.updateOp id p)) ops := by
        simpa [createdIds] using hi
      have := ihlb i this
      omega
    | deleteOp id =>
      have hle := applyOp_nextId_le s (.deleteOp id)
      obtain ⟨ihnd, ihlb⟩ := ih (applyOp s (.deleteOp id))
      refine ⟨by simpa [createdIds] using ihnd, fun i hi => ?_⟩
      have : i ∈ createdIds (applyOp s (.deleteOp id)) ops := by
        simpa [createdIds] using hi
      have := ihlb i this
      omega

/-- C7: every id assigned by `create` is unique across the Store's
lifetime — over any sequence of creates, updates and deletes from the
initial Store, no id is handed out twice, even after deletes. -/
theorem create_ids_unique (ops : List Op) : (createdIds initStore ops).Nodup :=
  (createdIds_nodup_aux ops initStore).1

/-- C8: a create payload omitting `priority` yields a `medium` record, one
omitting `status` yields a `pending` record, and a freshly created record
has `created_at = updated_at`. -/
theorem create_defaults (s : Store) (p : CreatePayload) (t : Todo) (s' : Store)
    (h : create s p = .ok (t, s')) :
    (p.priority = none → t.priority = .medium)
    ∧ (p.status = none → t.status = .pending)
    ∧ t.created_at = t.updated_at := by
  obtain ⟨_, hc, hu, _, _, _, hp, hs, _⟩ := create_ok h
  exact ⟨hp, hs, by rw [hc, hu]⟩

/-- A Store state reachable from the initial Store by some run of
client operations. -/
def Reachable (s : Store) : Prop := ∃ ops, exec initStore ops = s

/-- A successful get means the id lookup found the record. -/
theorem get_find {s : Store} {id : Nat} {t : Todo} (hget : get s id = .ok t) :
    s.records.find? (fun u => u.id = id) = some t := by
  cases hf : s.records.find? (fun u => u.id = id) with
  | none => simp [get, hf] at hget
  | some v =>
    simp [get, hf] at hget
    subst hget
    rfl

/-- Each operation preserves the invariant that every stored record's
`updated_at` lies strictly below the Store clock. -/
theorem clock_inv_applyOp {s : Store} (h : ∀ t ∈ s.records, t.updated_at < s.clock)
    (op : Op) : ∀ t ∈ (applyOp s op).records, t.updated_at < (applyOp s op).clock := by
  cases op with
  | createOp p =>
    cases hc : create s p with
    | error e => simpa [applyOp, hc] using h
    | ok r =>
      obtain ⟨t, s'⟩ := r
      obtain ⟨_, _, hu, hrec, _, hclk, _⟩ := create_ok hc
      intro u hmem
      simp only [applyOp, hc] at hmem ⊢
      rw [hrec, List.mem_append] at hmem
      rw [hclk]
      rcases hmem with hm | hm
      · exact Nat.lt_succ_of_lt (h u hm)
      · simp only [List.mem_singleton] at hm
        subst hm
        omega
  | updateOp id p =>
    cases hc : update s id p with
    | error e => simpa [applyOp, hc] using h
    | ok r =>
      obtain ⟨t', s'⟩ := r
      obtain ⟨hu, hclk, _, hrec⟩ := update_ok hc
      intro u hmem
      simp only [applyOp, hc] at hmem ⊢
      rw [hrec] at hmem
      rw [hclk]
      obtain ⟨v, hv, hveq⟩ := List.mem_map.mp hmem
      by_cases hid : v.id = id
      · rw [if_pos hid] at hveq
        subst hveq
        omega
      · rw [if_neg hid] at hveq
        subst hveq
        exact Nat.lt_succ_of_lt (h v hv)
  | deleteOp id =>
    cases hc : deleteTodo s id with
    | error e => simpa [applyOp, hc] using h
    | ok r =>
      obtain ⟨u, s'⟩ := r
      obtain ⟨hrec, hclk, _⟩ := delete_ok hc
      intro v hmem
      simp only [applyOp, hc] at hmem ⊢
      rw [hrec] at hmem
      rw [hclk]
      exact Nat.lt_succ_of_lt (h v (List.mem_of_mem_filter hmem))

/-- In every reachable Store, each record's `updated_at` lies strictly
below the clock supplying `now`. -/
theorem reachable_clock {s : Store} (h : Reachable s) :
    ∀ t ∈ s.records, t.updated_at < s.clock := by
  obtain ⟨ops, rfl⟩ := h
  suffices H : ∀ (l : List Op) (s₀ : Store),
      (∀ t ∈ s₀.records, t.updated_at < s₀.clock) →
      ∀ t ∈ (exec s₀ l).records, t.updated_at < (exec s₀ l).clock by
    exact H ops initStore (by simp [initStore])
  intro l
  induction l with
  | nil => intro s₀ h; simpa [exec] using h
  | cons op ops ih =>
    intro s₀ h
    simpa [exec] using ih (applyOp s₀ op) (clock_inv_applyOp h op)

/-- C3: a successful `update(id, partialFields)` on a reachable Store
changes only the supplied fields, leaves every unspecified field
identical to its prior value, sets `updated_at` to `now` (at least the
prior `updated_at`), returns the updated record, and rewrites the record
list only at the matching id. -/
theorem update_frame (s : Store) (id : Nat) (p : UpdatePayload) (t t' : Todo) (s' : Store)
    (hreach : Reachable s)
    (hget : get s id = .ok t)
    (hupd : update s id p = .ok (t', s')) :
    t'.id = t.id ∧ t'.created_at = t.created_at
    ∧ t'.title = p.title.getD t.title
    ∧ t'.description = p.description.getD t.description
    ∧ (p.due_date = none → t'.due_date = t.due_date)
    ∧ (p.priority = none → t'.priority = t.priority)
    ∧ (p.status = none → t'.status = t.status)
    ∧ t'.updated_at = s.clock
    ∧ t.updated_at ≤ t'.updated_at
    ∧ s'.records = s.records.map (fun u => if u.id = id then t' else u) := by
  have hfind := get_find hget
  by_cases hte : p.title = some ""
  · simp [update, hfind, hte] at hupd
  · cases hpr : parsePriorityOpt p.priority with
    | error e => simp [update, hfind, hte, hpr] at hupd
    | ok pr =>
      cases hst : parseStatusOpt p.status with
      | error e => simp [update, hfind, hte, hpr, hst] at hupd
      | ok st =>
        simp [update, hfind, hte, hpr, hst] at hupd
        obtain ⟨rfl, rfl⟩ := hupd
        have hmem : t ∈ s.records := List.mem_of_find?_eq_some hfind
        have hlt : t.updated_at < s.clock := reachable_clock hreach t hmem
        refine ⟨rfl, rfl, rfl, rfl, ?_, ?_, ?_, rfl, Nat.le_of_lt hlt, rfl⟩
        · intro hd
          simp [hd]
        · intro hp
          rw [hp] at hpr
          have : pr = none := by simpa [parsePriorityOpt] using hpr.symm
          simp [this]
        · intro hs
          rw [hs] at hst
          have : st = none := by simpa [parseStatusOpt] using hst.symm
          simp [this]

/-! Concrete fixtures: the Store after one create, one toggle-style
update, and one delete, used to exercise the theorems. -/

/-- A minimal create payload with only the required title. -/
def wCreate : CreatePayload := { title := some "a" }

/-- The record produced by `create initStore wCreate`. -/
def wTodo0 : Todo :=
  { id := 0, title := "a", description := "", due_date := none,
    priority := .medium, status := .pending, created_at := 0, updated_at := 0 }

/-- The Store after `create initStore wCreate`. -/
def wStore1 : Store := { records := [wTodo0], nextId := 1, clock := 1 }

/-- A toggle-style partial update supplying only `status`. -/
def wPatch : UpdatePayload := { status := some "completed" }

/-- The record after applying `wPatch` to `wTodo0` at clock 1. -/
def wTodo1 : Todo :=
  { id := 0, title := "a", description := "", due_date := none,
    priority := .medium, status := .completed, created_at := 0, updated_at := 1 }

/-- The Store after `update wStore1 0 wPatch`. -/
def wStore2 : Store := { records := [wTodo1], nextId := 1, clock := 2 }

/-- The Store after `deleteTodo wStore1 0`. -/
def wStoreDel : Store := { records := [], nextId := 1, clock := 2 }

/-- Witness for C3: the frame theorem applied to the concrete one-record
Store, toggling its status. -/
theorem update_frame_witness :
    wTodo1.id = wTodo0.id ∧ wTodo1.created_at = wTodo0.created_at
    ∧ wTodo1.title = wPatch.title.getD wTodo0.title
    ∧ wTodo1.description = wPatch.description.getD wTodo0.description
    ∧ (wPatch.due_date = none → wTodo1.due_date = wTodo0.due_date)
    ∧ (wPatch.priority = none → wTodo1.priority = wTodo0.priority)
    ∧ (wPatch.status = none → wTodo1.status = wTodo0.status)
    ∧ wTodo1.updated_at = wStore1.clock
    ∧ wTodo0.updated_at ≤ wTodo1.updated_at
    ∧ wStore2.records = wStore1.records.map (fun u => if u.id = 0 then wTodo1 else u) :=
  update_frame wStore1 0 wPatch wTodo0 wTodo1 wStore2
    ⟨[Op.createOp wCreate], rfl⟩ rfl rfl

/-- An out-of-enum value is rejected by the priority validator. -/
theorem parsePriority_invalid {v : String} (h : v ∉ PRIORITY_OPTIONS) :
    parsePriority (some v) = .error .validationError := by
  simp [PRIORITY_OPTIONS] at h
  obtain ⟨h1, h2, h3⟩ := h
  simp [parsePriority, h1, h2, h3]

/-- An out-of-enum value is rejected by the status validator. -/
theorem parseStatus_invalid {v : String} (h : v ∉ STATUS_OPTIONS) :
    parseStatus (some v) = .error .validationError := by
  simp [STATUS_OPTIONS] at h
  obtain ⟨h1, h2, h3⟩ := h
  simp [parseStatus, h1, h2, h3]

/-- The priority validator only ever reports a validation error. -/
theorem parsePriority_error {x : Option String} {e : Err}
    (h : parsePriority x = .error e) : e = .validationError := by
  cases x with
  | none => simp [parsePriority] at h
  | some v =>
    simp only [parsePriority] at h
    split_ifs at h
    all_goals simp_all

/-- The optional-priority validator rejects out-of-enum values. -/
theorem parsePriorityOpt_invalid {v : String} (h : v ∉ PRIORITY_OPTIONS) :
    parsePriorityOpt (some v) = .error .validationError := by
  simp [parsePriorityOpt, parsePriority_invalid h, Except.map]

/-- The optional-status validator rejects out-of-enum values. -/
theorem parseStatusOpt_invalid {v : String} (h : v ∉ STATUS_OPTIONS) :
    parseStatusOpt (some v) = .error .validationError := by
  simp [parseStatusOpt, parseStatus_invalid h, Except.map]

/-- The optional-priority validator only ever reports a validation error. -/
theorem parsePriorityOpt_error {x : Option String} {e : Err}
    (h : parsePriorityOpt x = .error e) : e = .validationError := by
  cases x with
  | none => simp [parsePriorityOpt] at h
  | some v =>
    cases hp : parsePriority (some v) with
    | error e' =>
      have he' := parsePriority_error hp
      subst he'
      simp only [parsePriorityOpt, hp, Except.map] at h
      injection h with h
      exact h.symm
    | ok pr => simp [parsePriorityOpt, hp, Except.map] at h

/-- C5: a create payload with a missing or empty title, or with an
out-of-enum priority or status, fails with `ValidationError` leaving the
Store unchanged; an update payload with an empty-string title or an
out-of-enum priority or status likewise fails with `ValidationError`
leaving the Store unchanged. -/
theorem validation_rejections (s : Store) (p : CreatePayload) (q : UpdatePayload)
    (id : Nat) :
    ((p.title = none ∨ p.title = some ""
        ∨ (∃ v, p.priority = some v ∧ v ∉ PRIORITY_OPTIONS)
        ∨ (∃ v, p.status = some v ∧ v ∉ STATUS_OPTIONS)) →
      create s p = .error .validationError ∧ applyOp s (.createOp p) = s)
    ∧ (∀ t, get s id = .ok t →
      (q.title = some ""
        ∨ (∃ v, q.priority = some v ∧ v ∉ PRIORITY_OPTIONS)
        ∨ (∃ v, q.status = some v ∧ v ∉ STATUS_OPTIONS)) →
      update s id q = .error .validationError ∧ applyOp s (.updateOp id q) = s) := by
  constructor
  · intro hbad
    have herr : create s p = .error .validationError := by
      rcases hbad with hnone | hempty | ⟨v, hv, hvmem⟩ | ⟨v, hv, hvmem⟩
      · simp [create, hnone]
      · simp [create, hempty]
      · cases hpt : p.title with
        | none => simp [create, hpt]
        | some ttl =>
          by_cases hte : ttl = ""
          · simp [create, hpt, hte]
          · simp [create, hpt, hte, hv, parsePriority_invalid hvmem]
      · cases hpt : p.title with
        | none => simp [create, hpt]
        | some ttl =>
          by_cases hte : ttl = ""
          · simp [create, hpt, hte]
          · cases hpr : parsePriority p.priority with
            | error e =>
              have he := parsePriority_error hpr
              subst he
              simp [create, hpt, hte, hpr]
            | ok pr =>
              simp [create, hpt, hte, hpr, hv, parseStatus_invalid hvmem]
    exact ⟨herr, by simp [applyOp, herr]⟩
  · intro t hget hbad
    have hfind := get_find hget
    have herr : update s id q = .error .validationError := by
      rcases hbad with hempty | ⟨v, hv, hvmem⟩ | ⟨v, hv, hvmem⟩
      · simp [update, hfind, hempty]
      · by_cases hte : q.title = some ""
        · simp [update, hfind, hte]
        · simp [update, hfind, hte, hv, parsePriorityOpt_invalid hvmem]
      · by_cases hte : q.title = some ""
        · simp [update, hfind, hte]
        · cases hpr : parsePriorityOpt q.priority with
          | error e =>
            have he := parsePriorityOpt_error hpr
            subst he
            simp [update, hfind, hte, hpr]
          | ok pr =>
            simp [update, hfind, hte, hpr, hv, parseStatusOpt_invalid hvmem]
    exact ⟨herr, by simp [applyOp, herr]⟩

/-- A create payload whose title is the empty string. -/
def wBadCreate : CreatePayload := { title := some "" }

/-- An update payload trying to clear the title. -/
def wBadPatch : UpdatePayload := { title := some "" }

/-- Witness for C5: the empty-title create fails against the empty
Store with nothing persisted, and the empty-title update fails against
the concrete one-record Store with the record set unchanged. -/
theorem validation_rejections_witness :
    create initStore wBadCreate = .error .validationError
    ∧ applyOp initStore (.createOp wBadCreate) = initStore
    ∧ update wStore1 0 wBadPatch = .error .validationError
    ∧ applyOp wStore1 (.updateOp 0 wBadPatch) = wStore1 := by
  have hc := (validation_rejections initStore wBadCreate wBadPatch 0).1
    (Or.inr (Or.inl rfl))
  have hu := (validation_rejections wStore1 wBadCreate wBadPatch 0).2 wTodo0 rfl
    (Or.inl rfl)
  exact ⟨hc.1, hc.2, hu.1, hu.2⟩

/-- C6: deleting an unknown id fails with `NotFoundError`; after a
successful delete, a get of the same id fails with `NotFoundError`, a
second delete also fails with `NotFoundError`, and the successful delete
returned no content. -/
theorem delete_semantics (s : Store) (id : Nat) :
    ((∀ t ∈ s.records, t.id ≠ id) → deleteTodo s id = .error .notFoundError)
    ∧ (∀ u s', deleteTodo s id = .ok (u, s') →
        u = () ∧ get s' id = .error .notFoundError
        ∧ deleteTodo s' id = .error .notFoundError) := by
  constructor
  · intro h
    have hany : s.records.any (fun t => t.id = id) = false := by
      rw [List.any_eq_false]
      intro t ht
      simpa using h t ht
    simp [deleteTodo, hany]
  · intro u s' hdel
    obtain ⟨hrec, _, _⟩ := delete_ok hdel
    have hnone : s'.records.find? (fun t => t.id = id) = none := by
      rw [hrec, List.find?_eq_none]
      intro t ht
      have := (List.mem_filter.mp ht).2
      simpa using this
    have hany : s'.records.any (fun t => t.id = id) = false := by
      rw [hrec, List.any_eq_false]
      intro t ht
      have := (List.mem_filter.mp ht).2
      simpa using this
    exact ⟨rfl, by simp [get, hnone], by simp [deleteTodo, hany]⟩

/-- Witness for C6: deleting an absent id 5 fails; after deleting the
one stored record, getting and re-deleting its id both fail. -/
theorem delete_semantics_witness :
    deleteTodo wStore1 5 = .error .notFoundError
    ∧ get wStoreDel 0 = .error .notFoundError
    ∧ deleteTodo wStoreDel 0 = .error .notFoundError := by
  obtain ⟨-, hget, hdel⟩ := (delete_semantics wStore1 0).2 () wStoreDel rfl
  exact ⟨(delete_semantics wStore1 5).1 (by decide), hget, hdel⟩

/-- Witness for C8: the minimal create takes the default priority and
status and equal timestamps. -/
theorem create_defaults_witness :
    (wCreate.priority = none → wTodo0.priority = .medium)
    ∧ (wCreate.status = none → wTodo0.status = .pending)
    ∧ wTodo0.created_at = wTodo0.updated_at :=
  create_defaults initStore wCreate wTodo0 wStore1 rfl

/-- A create payload whose `due_date` is not parseable as a date. -/
def wBugPayload : CreatePayload := { title := some "Ship", due_date := some "not-a-date" }

/-- The record the modelled Store produces for `wBugPayload`. -/
def wBugTodo : Todo :=
  { id := 0, title := "Ship", description := "", due_date := some "not-a-date",
    priority := .medium, status := .pending, created_at := 0, updated_at := 0 }

/-- The Store after creating `wBugPayload`. -/
def wBugStore : Store := { records := [wBugTodo], nextId := 1, clock := 1 }

/-- C4: contrary to the required rejection, a create whose `due_date` is
unparseable as a date succeeds and stores the value as opaque text, and
the frontend `formatDate` then renders the stored text verbatim — the
silent pass-through the spec flags as a latent bug. -/
theorem invalid_due_date_stored :
    isValidDateString "not-a-date" = false
    ∧ create initStore wBugPayload = .ok (wBugTodo, wBugStore)
    ∧ wBugTodo.due_date = some "not-a-date"
    ∧ get wBugStore 0 = .ok wBugTodo
    ∧ formatDate wBugTodo.due_date = "not-a-date" := by
  exact ⟨rfl, rfl, rfl, rfl, rfl⟩

/-- C9: a todo appears in `filteredTodos` exactly when it is in the input
and matches the status filter, the priority filter, and the lowercased
search over its title or (possibly missing) description; the output is a
sublist of the input, so the order is preserved. -/
theorem filteredTodos_spec (todos : List JsTodo) (sf pf term : String) :
    (∀ t, t ∈ filteredTodos todos sf pf term ↔
      t ∈ todos ∧ (sf = "all" ∨ t.status = sf) ∧ (pf = "all" ∨ t.priority = pf)
        ∧ (jsIncludes (jsToLower t.title) (jsToLower term) = true
            ∨ jsIncludes (jsToLower (t.description.getD "")) (jsToLower term) = true))
    ∧ List.Sublist (filteredTodos todos sf pf term) todos := by
  refine ⟨fun t => ?_, List.filter_sublist _⟩
  simp [filteredTodos, List.mem_filter, Bool.or_eq_true, Bool.and_eq_true, beq_iff_eq,
    and_assoc]

/-- A concrete in-progress, high-priority todo as the frontend sees it. -/
def wJsTodo : JsTodo :=
  { id := "1", title := "Ship", description := none, due_date := none,
    status := "in-progress", priority := "high" }

/-- Witness for C9: the concrete todo passes its own status and priority
filters with an empty search term. -/
theorem filteredTodos_spec_witness :
    wJsTodo ∈ filteredTodos [wJsTodo] "in-progress" "high" "" := by
  have h := (filteredTodos_spec [wJsTodo] "in-progress" "high" "").1 wJsTodo
  exact h.mpr ⟨by simp, Or.inr rfl, Or.inr rfl, Or.inl (by decide)⟩

/-- C10: the toggle action's PUT body carries only the `status` field,
whose value is `pending` when the current status is `completed` and
`completed` otherwise; in particular an in-progress todo is marked
completed. -/
theorem handleToggle_only_status (todo : JsTodo) :
    (handleTogglePayload todo).title = none
    ∧ (handleTogglePayload todo).description = none
    ∧ (handleTogglePayload todo).due_date = none
    ∧ (handleTogglePayload todo).priority = none
    ∧ (handleTogglePayload todo).status
        = some (if todo.status = "completed" then "pending" else "completed")
    ∧ (todo.status = "in-progress" →
        (handleTogglePayload todo).status = some "completed") := by
  refine ⟨rfl, rfl, rfl, rfl, rfl, fun h => ?_⟩
  have hne : toggleNextStatus "in-progress" = "completed" := rfl
  simp [handleTogglePayload, h, hne]

/-- Witness for C10: toggling the concrete in-progress todo issues a
status of `completed`. -/
theorem handleToggle_only_status_witness :
    wJsTodo.status = "in-progress"
    ∧ (handleTogglePayload wJsTodo).status = some "completed" :=
  ⟨rfl, (handleToggle_only_status wJsTodo).2.2.2.2.2 rfl⟩

end TodoApp
